import Mathlib

/-!
Verification of the e-ink image conversion pipeline (crop_and_convert.py)
against its natural-language specification.

The development shallowly embeds the program: 8-bit channel samples are
integers, floating-point arithmetic is modelled by exact real arithmetic,
Python's `int()` float-to-int conversion is truncation toward zero, and
`numpy`'s `astype(uint8)` on clipped values likewise truncates. Images are
a pair of dimensions with a pixel-lookup function. External library calls
(PIL enhancers, resize, quantize) are modelled from the specification's
contract for them and are marked as such in their doc comments.
-/

namespace EinkC7

/-- An RGB pixel: three 8-bit channel samples, held as integers. -/
structure Pixel where
  r : ℤ
  g : ℤ
  b : ℤ
deriving DecidableEq

/-- A frame buffer: a 2D grid of pixels, addressed as `pix row column`
(the source indexes `img_array[y, x]`). -/
structure Image where
  width : ℕ
  height : ℕ
  pix : ℕ → ℕ → Pixel

/-- Python `int()` on a float: truncation toward zero. -/
noncomputable def pyInt (x : ℝ) : ℤ :=
  if 0 ≤ x then ⌊x⌋ else -⌊-x⌋

/-- The clamp `max(0, min(255, x))` used throughout crop_and_convert.py. -/
noncomputable def clamp255 (x : ℝ) : ℝ := max 0 (min 255 x)

/-- The closed-form blue-reduction curve of `reduce_blue_in_pixel`
(crop_and_convert.py lines 46-53), evaluated at the shrunk ratio `x`:
`((1/4)*(-4*pi^2*e^(3x) + 6*pi*sin(2*pi*x) - 9*cos(2*pi*x) + 9 + 4*pi^2)
  * e^(3-3x) / (pi^2*(1 - e^3)) - 1) * strength + 1`. -/
noncomputable def curveResult (x strength : ℝ) : ℝ :=
  ((1/4) * (-4 * Real.pi ^ 2 * Real.exp (3 * x) + 6 * Real.pi * Real.sin (2 * Real.pi * x)
      - 9 * Real.cos (2 * Real.pi * x) + 9 + 4 * Real.pi ^ 2)
    * Real.exp (3 - 3 * x) / (Real.pi ^ 2 * (1 - Real.exp 3)) - 1) * strength + 1

/-- The Curve Evaluator: the multiplier as a function of the blue ratio.
The source sets `shrunk_ratio = blue_ratio * 1.5` (line 32) and evaluates
the closed form there. -/
noncomputable def blueCurve (blue_ratio strength : ℝ) : ℝ :=
  curveResult (blue_ratio * 1.5) strength

/-- The multiplicative `reduction_factor` accumulated by
`reduce_blue_in_pixel` (lines 34-54): the darkness-based factor, then the
curve factor, each behind its guard. -/
noncomputable def reductionFactor (r g b : ℤ)
    (strength dark_strength luminance_threshold : ℝ) : ℝ :=
  let r_norm : ℝ := (r : ℝ) / 255
  let g_norm : ℝ := (g : ℝ) / 255
  let b_norm : ℝ := (b : ℝ) / 255
  let luminance : ℝ := 0.299 * r_norm + 0.587 * g_norm + 0.114 * b_norm
  let total : ℝ := r_norm + g_norm + b_norm + 0.000001
  let blue_ratio : ℝ := b_norm / total
  let f1 : ℝ :=
    if 0 < dark_strength ∧ luminance < luminance_threshold then
      1 * (1 - dark_strength * (1 - luminance / luminance_threshold) * 0.1)
    else 1
  if 0 < strength then f1 * blueCurve blue_ratio strength else f1

/-- The Pixel Corrector `reduce_blue_in_pixel` (lines 10-59): fast path
when both strengths are zero, otherwise the blue channel is rescaled by
the reduction factor, clamped, and converted with Python `int()`. -/
noncomputable def reduce_blue_in_pixel (r g b : ℤ)
    (strength dark_strength luminance_threshold : ℝ) : Pixel :=
  if strength = 0 ∧ dark_strength = 0 then ⟨r, g, b⟩
  else
    ⟨r, g, pyInt (clamp255 ((b : ℝ) / 255 *
      reductionFactor r g b strength dark_strength luminance_threshold * 255))⟩

/-- The Frame Colorizer `apply_blue_reduction` (lines 61-80): identity when
both strengths are zero, otherwise the Pixel Corrector applied to every
pixel, with the default `luminance_threshold = 0.35`. -/
noncomputable def apply_blue_reduction (img : Image) (strength dark_strength : ℝ) : Image :=
  if strength = 0 ∧ dark_strength = 0 then img
  else
    ⟨img.width, img.height, fun y x =>
      let p := img.pix y x
      reduce_blue_in_pixel p.r p.g p.b strength dark_strength 0.35⟩

/-- Apply a per-pixel transform across a frame buffer, keeping dimensions. -/
noncomputable def mapImage (f : Pixel → Pixel) (img : Image) : Image :=
  ⟨img.width, img.height, fun y x => f (img.pix y x)⟩

/-- Per-pixel luminance on the 0..255 scale, `0.299*r + 0.587*g + 0.114*b`
(crop_and_convert.py line 112). -/
noncomputable def luminance255 (p : Pixel) : ℝ :=
  0.299 * (p.r : ℝ) + 0.587 * (p.g : ℝ) + 0.114 * (p.b : ℝ)

/-- Modelled from the spec: the saturation step delegates to the external
PIL `ImageEnhance.Color` enhancer (not in this repository). Per the spec it
scales chroma toward or away from the per-pixel luminance by
`saturation/100`, with channels clamped to 0..255. -/
noncomputable def saturationPixel (saturation : ℤ) (p : Pixel) : Pixel :=
  let f : ℝ := (saturation : ℝ) / 100
  let L : ℝ := luminance255 p
  ⟨pyInt (clamp255 (L + f * ((p.r : ℝ) - L))),
   pyInt (clamp255 (L + f * ((p.g : ℝ) - L))),
   pyInt (clamp255 (L + f * ((p.b : ℝ) - L)))⟩

/-- The black-level step body (lines 91-95): add `black_level*255/100` to
every channel, clip to 0..255, cast back to uint8 (truncation). -/
noncomputable def blackLevelPixel (black_level : ℤ) (p : Pixel) : Pixel :=
  let d : ℝ := (black_level : ℝ) * 255 / 100
  ⟨pyInt (clamp255 ((p.r : ℝ) + d)),
   pyInt (clamp255 ((p.g : ℝ) + d)),
   pyInt (clamp255 ((p.b : ℝ) + d))⟩

/-- Modelled from the spec: the contrast step delegates to the external PIL
`ImageEnhance.Contrast` enhancer (not in this repository). Per the spec it
is a linear contrast stretch around mid-gray with the enhancement factor
the source computes (`1 + contrast*0.2` when positive, `1 + contrast*0.1`
when negative), channels clamped to 0..255. -/
noncomputable def contrastPixel (contrast : ℝ) (p : Pixel) : Pixel :=
  let f : ℝ := if 0 < contrast then 1 + contrast * 0.2 else 1 + contrast * 0.1
  ⟨pyInt (clamp255 (128 + f * ((p.r : ℝ) - 128))),
   pyInt (clamp255 (128 + f * ((p.g : ℝ) - 128))),
   pyInt (clamp255 (128 + f * ((p.b : ℝ) - 128)))⟩

/-- The shadow-lift step body (lines 109-119): per-pixel shadow mask
`(255 - luminance)/255`, adjustment `mask * shadows * 5` added to every
channel, clipped to 0..255, cast back to uint8 (truncation). -/
noncomputable def shadowPixel (shadows : ℝ) (p : Pixel) : Pixel :=
  let adjustment : ℝ := (255 - luminance255 p) / 255 * shadows * 5
  ⟨pyInt (clamp255 ((p.r : ℝ) + adjustment)),
   pyInt (clamp255 ((p.g : ℝ) + adjustment)),
   pyInt (clamp255 ((p.b : ℝ) + adjustment))⟩

/-- Saturation step with its skip guard (`if saturation != 100`, line 86). -/
noncomputable def saturationStep (saturation : ℤ) (img : Image) : Image :=
  if saturation ≠ 100 then mapImage (saturationPixel saturation) img else img

/-- Black-level step with its skip guard (`if black_level > 0`, line 91). -/
noncomputable def blackLevelStep (black_level : ℤ) (img : Image) : Image :=
  if 0 < black_level then mapImage (blackLevelPixel black_level) img else img

/-- Contrast step with its skip guard (`if contrast != 0`, line 98). -/
noncomputable def contrastStep (contrast : ℝ) (img : Image) : Image :=
  if contrast ≠ 0 then mapImage (contrastPixel contrast) img else img

/-- Shadow-lift step with its skip guard (`if shadows > 0`, line 109). -/
noncomputable def shadowStep (shadows : ℝ) (img : Image) : Image :=
  if 0 < shadows then mapImage (shadowPixel shadows) img else img

/-- The Adjustment Stage `apply_adjustments` (lines 82-121): saturation,
then black level, then contrast, then shadow lift, each behind its guard. -/
noncomputable def apply_adjustments (img : Image)
    (saturation black_level : ℤ) (contrast shadows : ℝ) : Image :=
  shadowStep shadows (contrastStep contrast
    (blackLevelStep black_level (saturationStep saturation img)))

/-- PIL `Image.crop((left, upper, right, lower))`: the box between the
given coordinates, so size `(right-left) x (lower-upper)`. -/
noncomputable def cropBox (img : Image) (left upper right lower : ℕ) : Image :=
  ⟨right - left, lower - upper, fun y x => img.pix (upper + y) (left + x)⟩

/-- The Geometry Stage crop `crop_to_ratio` (lines 123-142), with the
parsed target ratio as an exact rational: if the image is too wide, crop
the width to `int(height * target_ratio)` centered; otherwise crop the
height to `int(width / target_ratio)` centered. -/
noncomputable def crop_to_ratio (img : Image) (target_ratio : ℚ) : Image :=
  let width := img.width
  let height := img.height
  let current_ratio : ℚ := (width : ℚ) / (height : ℚ)
  if target_ratio < current_ratio then
    let new_width : ℕ := (⌊(height : ℚ) * target_ratio⌋).toNat
    let left := (width - new_width) / 2
    cropBox img left 0 (left + new_width) height
  else
    let new_height : ℕ := (⌊(width : ℚ) / target_ratio⌋).toNat
    let top := (height - new_height) / 2
    cropBox img 0 top width (top + new_height)

/-- Modelled from the spec: `Image.resize` is an external library
capability (PIL, line 212). Its contract: the output has exactly the
requested dimensions, and each output pixel is resampled from the source
(so a constant image resizes to a constant image). The model samples the
source at the proportionally mapped coordinate. -/
noncomputable def resize (img : Image) (w h : ℕ) : Image :=
  ⟨w, h, fun y x => img.pix (y * img.height / h) (x * img.width / w)⟩

/-- Squared distance between two pixels, for nearest-palette-color choice. -/
noncomputable def distSq (p q : Pixel) : ℤ :=
  (p.r - q.r) ^ 2 + (p.g - q.g) ^ 2 + (p.b - q.b) ^ 2

/-- Modelled from the spec: `simple_dither` (lines 144-158) delegates to
the external PIL `Image.quantize` (not in this repository). Per the spec
every output pixel is an exact palette member; the model maps each pixel
to its nearest palette color. The Floyd-Steinberg refinement of the
diffusion mode only redistributes quantization error and never changes the
dimensions or the palette-membership contract, which is all the claims
verified here use. -/
noncomputable def nearestPaletteColor (palette : List Pixel) (p : Pixel) : Pixel :=
  match palette with
  | [] => p
  | q :: qs => qs.foldl (fun best c => if distSq p c < distSq p best then c else best) q

/-- The Quantizer applied across the frame buffer (either dither mode). -/
noncomputable def simple_dither (img : Image) (palette : List Pixel) : Image :=
  mapImage (nearestPaletteColor palette) img

/-- The command-line configuration surface of `main` (lines 160-171). -/
structure Args where
  blue_reduction : ℝ
  dark_blue_reduction : ℝ
  saturation : ℤ
  black_level : ℤ
  contrast : ℝ
  shadows : ℝ
  dither_floyd : Bool

/-- The target crop ratio `main` selects from the input orientation
(lines 196-206): landscape (width > height) gets 5:3, portrait 3:5. -/
noncomputable def targetRatio (img : Image) : ℚ :=
  if img.height < img.width then 5 / 3 else 3 / 5

/-- The fixed output dimensions `main` selects (lines 196-206):
800x480 for landscape, 480x800 for portrait. -/
noncomputable def finalDims (img : Image) : ℕ × ℕ :=
  if img.height < img.width then (800, 480) else (480, 800)

/-- The adjusted frame buffer just before quantization: crop, resize,
blue reduction, adjustments, in the order `main` applies them
(lines 210-218). -/
noncomputable def adjustedBuffer (img : Image) (args : Args) : Image :=
  apply_adjustments
    (apply_blue_reduction
      (resize (crop_to_ratio img (targetRatio img)) (finalDims img).1 (finalDims img).2)
      args.blue_reduction args.dark_blue_reduction)
    args.saturation args.black_level args.contrast args.shadows

/-- The pipeline tail of `main` (lines 220-229): when the palette asset is
present the adjusted buffer is quantized; when it is absent a warning is
printed and the adjusted buffer passes through unchanged. The returned
list holds the warnings of the run. -/
noncomputable def pipeline (img : Image) (args : Args)
    (palette : Option (List Pixel)) : Image × List String :=
  match palette with
  | some pal => (simple_dither (adjustedBuffer img args) pal, [])
  | none => (adjustedBuffer img args,
      ["Warning: Palette file not found. Skipping dithering."])

/-- The whole of `main` (lines 160-230): a missing input image is fatal
(`sys.exit(1)`, modelled as an error); otherwise the pipeline runs to
completion and its result is saved (modelled as the returned value). -/
noncomputable def mainRun (input : Option Image) (args : Args)
    (palette : Option (List Pixel)) : Except String (Image × List String) :=
  match input with
  | none => Except.error "Error: Image file not found."
  | some img => Except.ok (pipeline img args palette)

/-! Helper lemmas about the clamp and the float-to-int conversion. -/

lemma clamp255_nonneg (x : ℝ) : 0 ≤ clamp255 x := le_max_left 0 _

lemma clamp255_le (x : ℝ) : clamp255 x ≤ 255 :=
  max_le (by norm_num) (min_le_left _ _)

lemma pyInt_of_nonneg {x : ℝ} (h : 0 ≤ x) : pyInt x = ⌊x⌋ := if_pos h

lemma pyInt_clamp255_nonneg (x : ℝ) : 0 ≤ pyInt (clamp255 x) := by
  rw [pyInt_of_nonneg (clamp255_nonneg x)]
  exact Int.floor_nonneg.mpr (clamp255_nonneg x)

lemma pyInt_clamp255_le (x : ℝ) : pyInt (clamp255 x) ≤ 255 := by
  rw [pyInt_of_nonneg (clamp255_nonneg x)]
  have h := Int.floor_le_floor (α := ℝ) (clamp255_le x)
  simpa using h

/-- The curve at shrunk ratio 0: the transcendental numerator vanishes. -/
lemma curveResult_at_zero (s : ℝ) : curveResult 0 s = 1 - s := by
  unfold curveResult
  rw [show (3 : ℝ) * 0 = 0 by ring, show 2 * Real.pi * 0 = 0 by ring,
    show (3 : ℝ) - 0 = 3 by ring, Real.exp_zero, Real.sin_zero, Real.cos_zero]
  ring

/-- C1 (counterexample): at blue_ratio = 0 and strength = 1 the Curve
Evaluator returns 0, not 1, refuting the claim that the closed-form
multiplier equals 1 at blue_ratio = 0 for every strength. -/
theorem curve_at_zero_counterexample : blueCurve 0 1 ≠ 1 := by
  unfold blueCurve
  rw [show (0 : ℝ) * 1.5 = 0 by ring, curveResult_at_zero]
  norm_num

/-- C1 (amended): at blue_ratio = 0 the Curve Evaluator returns
1 - strength (so it returns 1 exactly when strength = 0); nevertheless a
pixel whose blue channel is 0 is never changed by the Pixel Corrector,
since the recomputed blue channel is again 0. -/
theorem curve_at_zero_amended :
    (∀ s : ℝ, blueCurve 0 s = 1 - s) ∧
    (∀ (r g : ℤ) (strength dark thr : ℝ),
      (reduce_blue_in_pixel r g 0 strength dark thr).b = 0) := by
  constructor
  · intro s
    unfold blueCurve
    rw [show (0 : ℝ) * 1.5 = 0 by ring]
    exact curveResult_at_zero s
  · intro r g strength dark thr
    unfold reduce_blue_in_pixel
    split
    · rfl
    · show pyInt (clamp255 (((0 : ℤ) : ℝ) / 255 * _ * 255)) = 0
      rw [show (((0 : ℤ) : ℝ) / 255 * _ * 255) = 0 by push_cast; ring]
      unfold clamp255 pyInt
      norm_num

/-- C4: with strength = 0 and dark_strength = 0 the Pixel Corrector is the
byte-exact identity on every pixel, and the Frame Colorizer likewise
returns the frame buffer unchanged (the fast path, no numeric processing). -/
theorem pixel_corrector_identity :
    (∀ (r g b : ℤ) (thr : ℝ), reduce_blue_in_pixel r g b 0 0 thr = ⟨r, g, b⟩) ∧
    (∀ img : Image, apply_blue_reduction img 0 0 = img) := by
  constructor
  · intro r g b thr
    simp [reduce_blue_in_pixel]
  · intro img
    simp [apply_blue_reduction]

/-- C5: the Adjustment Stage with saturation = 100, black_level = 0,
contrast = 0 and shadows = 0 returns the input frame buffer byte-exactly
unchanged, and each of the four steps is independently skipped when its
own parameter is at its identity value. -/
theorem adjustments_identity :
    (∀ img : Image, apply_adjustments img 100 0 0 0 = img) ∧
    (∀ img : Image, saturationStep 100 img = img) ∧
    (∀ img : Image, blackLevelStep 0 img = img) ∧
    (∀ img : Image, contrastStep 0 img = img) ∧
    (∀ img : Image, shadowStep 0 img = img) := by
  refine ⟨fun img => ?_, fun img => ?_, fun img => ?_, fun img => ?_, fun img => ?_⟩ <;>
    simp [apply_adjustments, saturationStep, blackLevelStep, contrastStep, shadowStep]

/-- C8: the Pixel Corrector never modifies the red or green channel, for
every input pixel and every parameter values. -/
theorem red_green_never_modified (r g b : ℤ) (strength dark thr : ℝ) :
    (reduce_blue_in_pixel r g b strength dark thr).r = r ∧
    (reduce_blue_in_pixel r g b strength dark thr).g = g := by
  unfold reduce_blue_in_pixel
  split <;> simp

/-- Every channel of a pixel lies within 0..255. -/
def inRange (p : Pixel) : Prop :=
  0 ≤ p.r ∧ p.r ≤ 255 ∧ 0 ≤ p.g ∧ p.g ≤ 255 ∧ 0 ≤ p.b ∧ p.b ≤ 255

/-- C3: for an input pixel within 0..255 and any parameter values, the
Pixel Corrector and each of the four Adjustment Stage per-pixel transforms
produce channels within 0..255: no transform underflows or overflows. -/
theorem channels_stay_in_range (p : Pixel) (hp : inRange p)
    (strength dark thr : ℝ) (sat bl : ℤ) (con sh : ℝ) :
    inRange (reduce_blue_in_pixel p.r p.g p.b strength dark thr) ∧
    inRange (saturationPixel sat p) ∧
    inRange (blackLevelPixel bl p) ∧
    inRange (contrastPixel con p) ∧
    inRange (shadowPixel sh p) := by
  obtain ⟨h1, h2, h3, h4, h5, h6⟩ := hp
  refine ⟨?_, ?_, ?_, ?_, ?_⟩
  · unfold reduce_blue_in_pixel
    split
    · exact ⟨h1, h2, h3, h4, h5, h6⟩
    · exact ⟨h1, h2, h3, h4, pyInt_clamp255_nonneg _, pyInt_clamp255_le _⟩
  · exact ⟨pyInt_clamp255_nonneg _, pyInt_clamp255_le _, pyInt_clamp255_nonneg _,
      pyInt_clamp255_le _, pyInt_clamp255_nonneg _, pyInt_clamp255_le _⟩
  · exact ⟨pyInt_clamp255_nonneg _, pyInt_clamp255_le _, pyInt_clamp255_nonneg _,
      pyInt_clamp255_le _, pyInt_clamp255_nonneg _, pyInt_clamp255_le _⟩
  · exact ⟨pyInt_clamp255_nonneg _, pyInt_clamp255_le _, pyInt_clamp255_nonneg _,
      pyInt_clamp255_le _, pyInt_clamp255_nonneg _, pyInt_clamp255_le _⟩
  · exact ⟨pyInt_clamp255_nonneg _, pyInt_clamp255_le _, pyInt_clamp255_nonneg _,
      pyInt_clamp255_le _, pyInt_clamp255_nonneg _, pyInt_clamp255_le _⟩

/-- C3 (witness): the range invariant instantiated at the concrete pixel
(10, 20, 30) with strength 1, dark strength 2, threshold 0.35,
saturation 50, black level 3, contrast -1 and shadows 2. -/
theorem channels_stay_in_range_witness :
    inRange (reduce_blue_in_pixel (Pixel.mk 10 20 30).r (Pixel.mk 10 20 30).g
      (Pixel.mk 10 20 30).b 1 2 0.35) ∧
    inRange (saturationPixel 50 (Pixel.mk 10 20 30)) ∧
    inRange (blackLevelPixel 3 (Pixel.mk 10 20 30)) ∧
    inRange (contrastPixel (-1) (Pixel.mk 10 20 30)) ∧
    inRange (shadowPixel 2 (Pixel.mk 10 20 30)) :=
  channels_stay_in_range ⟨10, 20, 30⟩
    (by exact ⟨by norm_num, by norm_num, by norm_num, by norm_num, by norm_num, by norm_num⟩)
    1 2 0.35 50 3 (-1) 2

/-- C10: whenever the Pixel Corrector recomputes the blue channel (one of
the strengths is nonzero), the clamped floating-point value is converted
by truncation toward zero, which on this nonnegative value is exactly the
floor: the output blue channel equals
floor(clamp(b_norm * reduction_factor * 255, 0, 255)). -/
theorem blue_truncation_is_floor (r g b : ℤ) (strength dark thr : ℝ)
    (h : strength ≠ 0 ∨ dark ≠ 0) :
    (reduce_blue_in_pixel r g b strength dark thr).b =
      ⌊clamp255 ((b : ℝ) / 255 * reductionFactor r g b strength dark thr * 255)⌋ := by
  unfold reduce_blue_in_pixel
  rw [if_neg (by tauto)]
  exact pyInt_of_nonneg (clamp255_nonneg _)

/-- C10 (witness): the truncation-is-floor fact at the concrete pixel
(0, 0, 255) with strength 1, dark strength 0, threshold 0.35. -/
theorem blue_truncation_is_floor_witness :
    (reduce_blue_in_pixel 0 0 255 1 0 0.35).b =
      ⌊clamp255 (((255 : ℤ) : ℝ) / 255 * reductionFactor 0 0 255 1 0 0.35 * 255)⌋ :=
  blue_truncation_is_floor 0 0 255 1 0 0.35 (Or.inl (by norm_num))

/-- Pure inequality core for the pure-blue counterexample: with the pi and
exponential bounds as hypotheses, the curve value at strength 10 exceeds 1. -/
lemma abstract_curve (P E1 E2 E3 S C : ℝ)
    (hP1 : (3.141592 : ℝ) < P) (hP2 : P < 3.15)
    (hE1E2 : E1 * E2 = E3) (hE2pos : 0 < E2) (hE2lt : E2 < 0.368)
    (hS : S ≤ 1) (hC : -1 ≤ C) (hE3ge : 4 ≤ E3) :
    1 < (1 / 4 * (-4 * P ^ 2 * E1 + 6 * P * S - 9 * C + 9 + 4 * P ^ 2)
      * E2 / (P ^ 2 * (1 - E3)) - 1) * 10 + 1 := by
  have hP0 : (0 : ℝ) < P := by linarith
  have hNum : -4 * P ^ 2 * E1 + 6 * P * S - 9 * C + 9 + 4 * P ^ 2
      ≤ -4 * P ^ 2 * E1 + 6 * P + 18 + 4 * P ^ 2 := by
    nlinarith [mul_nonneg (by linarith : (0 : ℝ) ≤ 6 * P) (by linarith : (0 : ℝ) ≤ 1 - S)]
  have hA : 1 / 4 * (-4 * P ^ 2 * E1 + 6 * P * S - 9 * C + 9 + 4 * P ^ 2) * E2
      ≤ 1 / 4 * (-4 * P ^ 2 * E1 + 6 * P + 18 + 4 * P ^ 2) * E2 := by
    nlinarith [mul_le_mul_of_nonneg_right hNum hE2pos.le]
  have hRHS : 1 / 4 * (-4 * P ^ 2 * E1 + 6 * P + 18 + 4 * P ^ 2) * E2
      = -(P ^ 2) * E3 + 1 / 4 * (6 * P + 18 + 4 * P ^ 2) * E2 := by
    linear_combination (-(P ^ 2) : ℝ) * hE1E2
  have hSmall : 1 / 4 * (6 * P + 18 + 4 * P ^ 2) * E2 < P ^ 2 := by
    have hcoef : (0 : ℝ) < 6 * P + 18 + 4 * P ^ 2 := by positivity
    have hcoefB : 6 * P + 18 + 4 * P ^ 2 < 76.59 := by nlinarith
    have hprod : (6 * P + 18 + 4 * P ^ 2) * E2 < 76.59 * 0.368 :=
      mul_lt_mul'' hcoefB hE2lt hcoef.le hE2pos.le
    nlinarith [hprod, hP1]
  have hDneg : P ^ 2 * (1 - E3) < 0 := by
    nlinarith [pow_pos hP0 2, hE3ge]
  have hAD : 1 / 4 * (-4 * P ^ 2 * E1 + 6 * P * S - 9 * C + 9 + 4 * P ^ 2) * E2
      < P ^ 2 * (1 - E3) := by
    have hstep : -(P ^ 2) * E3 + 1 / 4 * (6 * P + 18 + 4 * P ^ 2) * E2
        < P ^ 2 * (1 - E3) := by nlinarith [hSmall]
    calc 1 / 4 * (-4 * P ^ 2 * E1 + 6 * P * S - 9 * C + 9 + 4 * P ^ 2) * E2
        ≤ 1 / 4 * (-4 * P ^ 2 * E1 + 6 * P + 18 + 4 * P ^ 2) * E2 := hA
      _ = -(P ^ 2) * E3 + 1 / 4 * (6 * P + 18 + 4 * P ^ 2) * E2 := hRHS
      _ < P ^ 2 * (1 - E3) := hstep
  have hdiv : 1 < 1 / 4 * (-4 * P ^ 2 * E1 + 6 * P * S - 9 * C + 9 + 4 * P ^ 2) * E2
      / (P ^ 2 * (1 - E3)) := (one_lt_div_of_neg hDneg).mpr hAD
  linarith [hdiv]

/-- For every shrunk ratio of at least 4/3 and strength 10, the closed-form
curve value exceeds 1: far enough along the curve the multiplier amplifies
the blue channel instead of reducing it. -/
lemma one_lt_curveResult (X : ℝ) (hX : 4 / 3 ≤ X) : 1 < curveResult X 10 := by
  unfold curveResult
  refine abstract_curve Real.pi (Real.exp (3 * X)) (Real.exp (3 - 3 * X)) (Real.exp 3)
    (Real.sin (2 * Real.pi * X)) (Real.cos (2 * Real.pi * X))
    Real.pi_gt_d6 Real.pi_lt_d2 ?_ (Real.exp_pos _) ?_
    (Real.sin_le_one _) (Real.neg_one_le_cos _) ?_
  · rw [← Real.exp_add]
    norm_num
  · have h1 : Real.exp (3 - 3 * X) ≤ Real.exp (-1) := Real.exp_le_exp.mpr (by linarith)
    have h3 : (2.7182818283 : ℝ) < Real.exp 1 := Real.exp_one_gt_d9
    have h4 : Real.exp 1 * (Real.exp 1)⁻¹ = 1 :=
      mul_inv_cancel₀ (ne_of_gt (Real.exp_pos 1))
    have h5 : 0 < (Real.exp 1)⁻¹ := inv_pos.mpr (Real.exp_pos 1)
    have h2 : Real.exp (-1) = (Real.exp 1)⁻¹ := Real.exp_neg 1
    rw [h2] at h1
    nlinarith [h1, h3, h4, h5]
  · have h := Real.add_one_le_exp (3 : ℝ)
    linarith

/-- The Pixel Corrector on the pure-blue pixel with strength 10 and dark
strength 0: the curve multiplier exceeds 1, the clamp caps the rescaled
blue at 255, so the pixel comes back unchanged. -/
lemma reduce_blue_pure_blue :
    reduce_blue_in_pixel 0 0 255 10 0 0.35 = ⟨0, 0, 255⟩ := by
  have hred : reductionFactor 0 0 255 10 0 0.35 = blueCurve (1000000 / 1000001) 10 := by
    unfold reductionFactor
    norm_num
  have hfac : 1 < reductionFactor 0 0 255 10 0 0.35 := by
    rw [hred]
    unfold blueCurve
    exact one_lt_curveResult _ (by norm_num)
  have hv : (255 : ℝ) ≤ ((255 : ℤ) : ℝ) / 255 * reductionFactor 0 0 255 10 0 0.35 * 255 := by
    push_cast
    nlinarith [hfac]
  have hcl : clamp255 (((255 : ℤ) : ℝ) / 255 * reductionFactor 0 0 255 10 0 0.35 * 255)
      = 255 := by
    unfold clamp255
    rw [min_eq_left hv]
    norm_num
  unfold reduce_blue_in_pixel
  rw [if_neg (by norm_num)]
  simp only [Pixel.mk.injEq]
  refine ⟨trivial, trivial, ?_⟩
  rw [hcl]
  unfold pyInt
  norm_num

/-- C2 (counterexample): for the pure-blue pixel (0,0,255) with
strength 10 and dark strength 0, the output blue channel is not strictly
less than 255, refuting the claimed reduction: the curve multiplier at
blue_ratio close to 1 exceeds 1, so clamping returns blue at exactly 255. -/
theorem pure_blue_counterexample :
    ¬ (reduce_blue_in_pixel 0 0 255 10 0 0.35).b < 255 := by
  rw [reduce_blue_pure_blue]
  norm_num

/-- C2 (amended): for a frame consisting of the single pure-blue pixel
(0,0,255), with strength 10 and dark strength 0, the output pixel is
unchanged: red and green remain 0, and the blue channel remains exactly
255 (rather than dropping below 255), because the curve multiplier
exceeds 1 at blue_ratio close to 1 and the clamp caps the product at 255. -/
theorem pure_blue_amended :
    reduce_blue_in_pixel 0 0 255 10 0 0.35 = ⟨0, 0, 255⟩ ∧
    (∀ y x : ℕ,
      (apply_blue_reduction ⟨1, 1, fun _ _ => ⟨0, 0, 255⟩⟩ 10 0).pix y x = ⟨0, 0, 255⟩) := by
  refine ⟨reduce_blue_pure_blue, fun y x => ?_⟩
  unfold apply_blue_reduction
  rw [if_neg (by norm_num)]
  exact reduce_blue_pure_blue

/-! Helper lemmas: skip guards and dimension preservation of each stage. -/

lemma apply_blue_reduction_00 (img : Image) : apply_blue_reduction img 0 0 = img := by
  simp [apply_blue_reduction]

lemma saturationStep_100 (img : Image) : saturationStep 100 img = img := by
  simp [saturationStep]

lemma blackLevelStep_0 (img : Image) : blackLevelStep 0 img = img := by
  simp [blackLevelStep]

lemma contrastStep_0 (img : Image) : contrastStep 0 img = img := by
  simp [contrastStep]

lemma shadowStep_0 (img : Image) : shadowStep 0 img = img := by
  simp [shadowStep]

lemma apply_blue_reduction_dims (img : Image) (s d : ℝ) :
    (apply_blue_reduction img s d).width = img.width ∧
    (apply_blue_reduction img s d).height = img.height := by
  unfold apply_blue_reduction
  split <;> exact ⟨rfl, rfl⟩

lemma saturationStep_dims (s : ℤ) (img : Image) :
    (saturationStep s img).width = img.width ∧
    (saturationStep s img).height = img.height := by
  unfold saturationStep
  split <;> exact ⟨rfl, rfl⟩

lemma blackLevelStep_dims (bl : ℤ) (img : Image) :
    (blackLevelStep bl img).width = img.width ∧
    (blackLevelStep bl img).height = img.height := by
  unfold blackLevelStep
  split <;> exact ⟨rfl, rfl⟩

lemma contrastStep_dims (c : ℝ) (img : Image) :
    (contrastStep c img).width = img.width ∧
    (contrastStep c img).height = img.height := by
  unfold contrastStep
  split <;> exact ⟨rfl, rfl⟩

lemma shadowStep_dims (sh : ℝ) (img : Image) :
    (shadowStep sh img).width = img.width ∧
    (shadowStep sh img).height = img.height := by
  unfold shadowStep
  split <;> exact ⟨rfl, rfl⟩

lemma apply_adjustments_dims (img : Image) (sat bl : ℤ) (con sh : ℝ) :
    (apply_adjustments img sat bl con sh).width = img.width ∧
    (apply_adjustments img sat bl con sh).height = img.height := by
  unfold apply_adjustments
  constructor
  · rw [(shadowStep_dims _ _).1, (contrastStep_dims _ _).1, (blackLevelStep_dims _ _).1,
      (saturationStep_dims _ _).1]
  · rw [(shadowStep_dims _ _).2, (contrastStep_dims _ _).2, (blackLevelStep_dims _ _).2,
      (saturationStep_dims _ _).2]

lemma adjustedBuffer_dims (img : Image) (args : Args) :
    (adjustedBuffer img args).width = (finalDims img).1 ∧
    (adjustedBuffer img args).height = (finalDims img).2 := by
  unfold adjustedBuffer
  constructor
  · rw [(apply_adjustments_dims _ _ _ _ _).1, (apply_blue_reduction_dims _ _ _).1]
    rfl
  · rw [(apply_adjustments_dims _ _ _ _ _).2, (apply_blue_reduction_dims _ _ _).2]
    rfl

lemma pipeline_dims (img : Image) (args : Args) (palette : Option (List Pixel)) :
    (pipeline img args palette).1.width = (finalDims img).1 ∧
    (pipeline img args palette).1.height = (finalDims img).2 := by
  cases palette with
  | none => exact adjustedBuffer_dims img args
  | some pal =>
      show (simple_dither (adjustedBuffer img args) pal).width = _ ∧
        (simple_dither (adjustedBuffer img args) pal).height = _
      unfold simple_dither mapImage
      exact adjustedBuffer_dims img args

lemma finalDims_fst (img : Image) :
    (finalDims img).1 = if img.height < img.width then 800 else 480 := by
  unfold finalDims
  split <;> rfl

lemma finalDims_snd (img : Image) :
    (finalDims img).2 = if img.height < img.width then 480 else 800 := by
  unfold finalDims
  split <;> rfl

lemma targetRatio_pos (img : Image) : 0 < targetRatio img := by
  unfold targetRatio
  split <;> norm_num

/-- The crop result matches the target ratio t to within one pixel of
integer rounding: the adjusted dimension is the integer floor of the exact
length the ratio demands from the kept dimension, so it is within one
pixel of exact. -/
def aspectWithinOnePixel (c : Image) (t : ℚ) : Prop :=
  ((c.width : ℚ) ≤ t * (c.height : ℚ) ∧ t * (c.height : ℚ) < (c.width : ℚ) + 1) ∨
  ((c.height : ℚ) ≤ (c.width : ℚ) / t ∧ (c.width : ℚ) / t < (c.height : ℚ) + 1)

lemma crop_aspect (img : Image) (t : ℚ) (ht : 0 < t) :
    aspectWithinOnePixel (crop_to_ratio img t) t := by
  rw [crop_to_ratio]
  simp only []
  unfold aspectWithinOnePixel
  split
  · left
    simp only [cropBox, Nat.add_sub_cancel_left, Nat.sub_zero]
    have hnn : (0 : ℚ) ≤ (img.height : ℚ) * t := by positivity
    have hfl : (0 : ℤ) ≤ ⌊(img.height : ℚ) * t⌋ := Int.floor_nonneg.mpr hnn
    have hcast : ((⌊(img.height : ℚ) * t⌋.toNat : ℕ) : ℚ) = (⌊(img.height : ℚ) * t⌋ : ℚ) := by
      exact_mod_cast Int.toNat_of_nonneg hfl
    rw [hcast]
    constructor
    · calc ((⌊(img.height : ℚ) * t⌋ : ℚ)) ≤ (img.height : ℚ) * t := Int.floor_le _
        _ = t * (img.height : ℚ) := mul_comm _ _
    · have h := Int.lt_floor_add_one ((img.height : ℚ) * t)
      calc t * (img.height : ℚ) = (img.height : ℚ) * t := mul_comm _ _
        _ < (⌊(img.height : ℚ) * t⌋ : ℚ) + 1 := h
  · right
    simp only [cropBox, Nat.add_sub_cancel_left, Nat.sub_zero]
    have hnn : (0 : ℚ) ≤ (img.width : ℚ) / t := by positivity
    have hfl : (0 : ℤ) ≤ ⌊(img.width : ℚ) / t⌋ := Int.floor_nonneg.mpr hnn
    have hcast : ((⌊(img.width : ℚ) / t⌋.toNat : ℕ) : ℚ) = (⌊(img.width : ℚ) / t⌋ : ℚ) := by
      exact_mod_cast Int.toNat_of_nonneg hfl
    rw [hcast]
    exact ⟨Int.floor_le _, Int.lt_floor_add_one _⟩

/-- C6: for every input image with positive width and height, the Geometry
Stage crop matches the requested target ratio to within one pixel of
integer rounding, and the pipeline's final output dimensions are exactly
800x480 when the input width is strictly greater than its height
(landscape, 5:3) and exactly 480x800 otherwise (portrait, 3:5). -/
theorem geometry_contract (img : Image) (hw : 0 < img.width) (hh : 0 < img.height)
    (args : Args) (palette : Option (List Pixel)) :
    aspectWithinOnePixel (crop_to_ratio img (targetRatio img)) (targetRatio img) ∧
    (pipeline img args palette).1.width = (if img.height < img.width then 800 else 480) ∧
    (pipeline img args palette).1.height = (if img.height < img.width then 480 else 800) := by
  refine ⟨crop_aspect img _ (targetRatio_pos img), ?_, ?_⟩
  · rw [(pipeline_dims img args palette).1, finalDims_fst]
  · rw [(pipeline_dims img args palette).2, finalDims_snd]

/-- A small concrete landscape image used to witness the geometry claims. -/
def demoImage : Image := ⟨10, 8, fun _ _ => ⟨0, 0, 0⟩⟩

/-- The command-line defaults of `main`: no blue reduction, saturation 100,
black level 0, contrast 1, shadows 0, Floyd-Steinberg dithering. -/
noncomputable def defaultArgs : Args := ⟨0, 0, 100, 0, 1, 0, true⟩

/-- C6 (witness): the geometry contract instantiated at a concrete 10x8
landscape image, the default arguments, and an absent palette. -/
theorem geometry_contract_witness :
    aspectWithinOnePixel (crop_to_ratio demoImage (targetRatio demoImage))
      (targetRatio demoImage) ∧
    (pipeline demoImage defaultArgs none).1.width
      = (if demoImage.height < demoImage.width then 800 else 480) ∧
    (pipeline demoImage defaultArgs none).1.height
      = (if demoImage.height < demoImage.width then 480 else 800) :=
  geometry_contract demoImage (by norm_num [demoImage]) (by norm_num [demoImage])
    defaultArgs none

/-- C7: when the palette asset is absent the Quantizer/Ditherer stage is
skipped entirely: the run completes without a fatal error, the saved
result is exactly the adjusted frame buffer unchanged, and the absence is
reported as a warning. -/
theorem palette_absent_passthrough (img : Image) (args : Args) :
    mainRun (some img) args none =
      Except.ok (adjustedBuffer img args,
        ["Warning: Palette file not found. Skipping dithering."]) := rfl

/-- The 1600x960 all-red input of the end-to-end scenario. -/
def pureRedImage : Image := ⟨1600, 960, fun _ _ => ⟨255, 0, 0⟩⟩

lemma crop_to_ratio_const (p : Pixel) (img : Image) (hc : ∀ y x, img.pix y x = p)
    (t : ℚ) : ∀ y x, (crop_to_ratio img t).pix y x = p := by
  intro y x
  rw [crop_to_ratio]
  simp only []
  split <;> exact hc _ _

lemma resize_const (p : Pixel) (img : Image) (hc : ∀ y x, img.pix y x = p)
    (w h : ℕ) : ∀ y x, (resize img w h).pix y x = p := fun _ _ => hc _ _

lemma mapImage_pix (f : Pixel → Pixel) (img : Image) (y x : ℕ) :
    (mapImage f img).pix y x = f (img.pix y x) := rfl

/-- The contrast step at the default contrast 1 (factor 1.2) fixes the
pure-red pixel: red saturates above 255 and clamps back to 255, green and
blue fall below 0 and clamp back to 0. -/
lemma contrastPixel_one_red : contrastPixel 1 ⟨255, 0, 0⟩ = ⟨255, 0, 0⟩ := by
  unfold contrastPixel clamp255 pyInt
  norm_num

/-- C9: the end-to-end scenario: a 1600x960 pure-red image, strength 0 and
all adjustments at their command-line defaults (saturation 100, black
level 0, contrast 1, shadows 0), no palette asset: the output is 800x480
and every output pixel is (255,0,0). -/
theorem end_to_end_pure_red :
    (pipeline pureRedImage defaultArgs none).1.width = 800 ∧
    (pipeline pureRedImage defaultArgs none).1.height = 480 ∧
    ∀ y x : ℕ, (pipeline pureRedImage defaultArgs none).1.pix y x = ⟨255, 0, 0⟩ := by
  have hfd : finalDims pureRedImage = (800, 480) := by
    unfold finalDims pureRedImage
    norm_num
  refine ⟨?_, ?_, ?_⟩
  · rw [(pipeline_dims _ _ _).1, hfd]
  · rw [(pipeline_dims _ _ _).2, hfd]
  · intro y x
    show (adjustedBuffer pureRedImage defaultArgs).pix y x = _
    have hres : ∀ y x : ℕ,
        (resize (crop_to_ratio pureRedImage (targetRatio pureRedImage))
          (finalDims pureRedImage).1 (finalDims pureRedImage).2).pix y x = ⟨255, 0, 0⟩ :=
      resize_const _ _ (crop_to_ratio_const _ _ (fun _ _ => rfl) _) _ _
    have hab : adjustedBuffer pureRedImage defaultArgs
        = contrastStep 1 (resize (crop_to_ratio pureRedImage (targetRatio pureRedImage))
            (finalDims pureRedImage).1 (finalDims pureRedImage).2) := by
      unfold adjustedBuffer defaultArgs
      rw [apply_blue_reduction_00]
      unfold apply_adjustments
      rw [saturationStep_100, blackLevelStep_0, shadowStep_0]
    rw [hab]
    unfold contrastStep
    rw [if_pos (by norm_num : (1 : ℝ) ≠ 0), mapImage_pix, hres]
    exact contrastPixel_one_red

end EinkC7
